import Mathlib

/-!
Verification development for the browser Kanban board application
(`script.js`, class `TrelloAI`, the full-featured first variant).

Shallow embedding conventions:
* JavaScript strings are modelled as `List Char` (`JStr`).  String literals
  of the source appear via `js "..."`; characters that the source writes as
  `'` and `"` inside string data are spliced in as `apo` and `qd`.
* `Date.now()` readings are passed in explicitly as a `now : Nat` argument;
  the identifier strings the code builds from them (`'board-' + Date.now()`
  etc.) are produced by `boardIdOf` / `listIdOf` / `cardIdOf`.
* `Math.random()`-driven choices are passed in as a `rand : Nat` argument and
  used as `rand % n`, modelling `Math.floor(Math.random() * n)`.
* DOM rendering (`renderBoards` …) has no effect on the data model and is
  not modelled; `localStorage` persistence is modelled where a claim needs
  it (see `startupBoards`, `encodeBoards`).
-/

/-- JavaScript strings, modelled as lists of characters. -/
abbrev JStr := List Char

/-- Coerce a Lean string literal into the `JStr` model. -/
def js (s : String) : JStr := s.data

/-- The apostrophe character `U+0027`. -/
def apo : Char := Char.ofNat 39

/-- The double-quote character `U+0022`. -/
def qd : Char := Char.ofNat 34

/-- ASCII lower-casing of one character; models `String.prototype.toLowerCase`
on the ASCII range (all keywords the source tests for are ASCII). -/
def lowerChar (c : Char) : Char :=
  if 'A' ≤ c && c ≤ 'Z' then Char.ofNat (c.toNat + 32) else c

/-- `s.toLowerCase()`. -/
def lowerStr (s : JStr) : JStr := s.map lowerChar

/-- Does `hay` start with `pat`? -/
def begWith : JStr → JStr → Bool
  | _, [] => true
  | [], _ :: _ => false
  | h :: hs, p :: ps => h == p && begWith hs ps

/-- `hay.includes(pat)`: does `pat` occur contiguously in `hay`? -/
def hasSub (hay pat : JStr) : Bool :=
  match hay with
  | [] => begWith [] pat
  | _ :: t => begWith hay pat || hasSub t pat

/-- The whitespace characters recognised by `String.prototype.trim` and the
regex class `\s` (the characters relevant to this code base). -/
def isWsp (c : Char) : Bool :=
  c == ' ' || c == '\t' || c == '\n' || c == '\r' ||
  c == Char.ofNat 11 || c == Char.ofNat 12 || c == Char.ofNat 160 ||
  c == Char.ofNat 0xfeff

/-- `s.trim()`: strip whitespace from both ends. -/
def jsTrim (s : JStr) : JStr :=
  ((s.dropWhile isWsp).reverse.dropWhile isWsp).reverse

/-- A Card: `{ id, title, description, aiSuggested }`.  `aiSuggested` is
`none` when the field is absent on the object (the seed data omits it). -/
structure Card where
  id : JStr
  title : JStr
  description : JStr
  aiSuggested : Option Bool
deriving DecidableEq, Repr

/-- A List (column) of the board: `{ id, title, cards }`.  Named `TList`
because `List` is taken in Lean. -/
structure TList where
  id : JStr
  title : JStr
  cards : List Card
deriving DecidableEq, Repr

/-- A Board: `{ id, title, lists }`. -/
structure Board where
  id : JStr
  title : JStr
  lists : List TList
deriving DecidableEq, Repr

/-- The board collection `this.boards`. -/
abbrev Model := List Board

/-- `'board-' + Date.now()` -/
def boardIdOf (now : Nat) : JStr := js "board-" ++ (Nat.repr now).data

/-- `'list-' + Date.now()` -/
def listIdOf (now : Nat) : JStr := js "list-" ++ (Nat.repr now).data

/-- `'card-' + Date.now()` -/
def cardIdOf (now : Nat) : JStr := js "card-" ++ (Nat.repr now).data

/-- Replace the first element satisfying `p` by its image under `f`; the
value-level rendering of `const x = xs.find(p); if (x) mutate(x)`. -/
def updateFirst (p : α → Bool) (f : α → α) : List α → List α
  | [] => []
  | x :: xs => if p x then f x :: xs else x :: updateFirst p f xs

/-- `this.boards.find(b => b.id === boardId)` -/
def findBoard (m : Model) (boardId : JStr) : Option Board :=
  m.find? (fun b => b.id == boardId)

/-- `board.lists.find(l => l.id === listId)`, resolved through the board. -/
def findList (m : Model) (boardId listId : JStr) : Option TList :=
  (findBoard m boardId).bind (fun b => b.lists.find? (fun l => l.id == listId))

/-- `list.cards.find(c => c.id === cardId)`, resolved through board and list. -/
def findCard (m : Model) (boardId listId cardId : JStr) : Option Card :=
  (findList m boardId listId).bind (fun l => l.cards.find? (fun c => c.id == cardId))

/-- `createBoard(title)`: pushes `{ id: 'board-'+Date.now(), title, lists: [] }`.
No validation of the title happens here. -/
def createBoard (now : Nat) (m : Model) (title : JStr) : Model :=
  m ++ [⟨boardIdOf now, title, []⟩]

/-- `createList(boardId, title)`: find the board; if found, push a new list
onto it; otherwise do nothing. -/
def createList (now : Nat) (m : Model) (boardId title : JStr) : Model :=
  updateFirst (fun b => b.id == boardId)
    (fun b => { b with lists := b.lists ++ [⟨listIdOf now, title, []⟩] }) m

/-- `createCard(boardId, listId, title, aiSuggested = false)`: find the board,
then the list inside it; if both resolve, push
`{ id: 'card-'+Date.now(), title, description: '', aiSuggested }`. -/
def createCard (now : Nat) (m : Model) (boardId listId title : JStr)
    (aiSuggested : Bool) : Model :=
  updateFirst (fun b => b.id == boardId)
    (fun b => { b with lists :=
      (updateFirst (fun l => l.id == listId)
        (fun l => { l with cards := l.cards ++ [⟨cardIdOf now, title, [], some aiSuggested⟩] })
        b.lists) }) m

/-- `updateCard(boardId, listId, cardId, title)`: resolve board, list, card;
if all resolve, replace the card's title in place. -/
def updateCard (m : Model) (boardId listId cardId title : JStr) : Model :=
  updateFirst (fun b => b.id == boardId)
    (fun b => { b with lists :=
      (updateFirst (fun l => l.id == listId)
        (fun l => { l with cards :=
          (updateFirst (fun c => c.id == cardId)
            (fun c => { c with title := title }) l.cards) }) b.lists) }) m

/-- `deleteBoardConfirm(boardId)`: when the user confirms, filter out every
board whose id equals `boardId`; declining leaves the model untouched. -/
def deleteBoardConfirm (confirmed : Bool) (m : Model) (boardId : JStr) : Model :=
  if confirmed then m.filter (fun b => !(b.id == boardId)) else m

/-- `deleteListConfirm(boardId, listId)`: when confirmed, find the board and
filter the list out of it. -/
def deleteListConfirm (confirmed : Bool) (m : Model) (boardId listId : JStr) : Model :=
  if confirmed then
    updateFirst (fun b => b.id == boardId)
      (fun b => { b with lists := b.lists.filter (fun l => !(l.id == listId)) }) m
  else m

/-- The kind held in `this.modalType`. -/
inductive ModalType where
  | board
  | list
  | card
  | editCard
deriving DecidableEq, Repr

/-- The identifiers held in `this.modalData`. -/
structure ModalData where
  boardId : JStr
  listId : JStr
  cardId : JStr
deriving DecidableEq, Repr

/-- `handleModalConfirm()`: trim the input value; if empty, return without
touching the model; otherwise dispatch on the modal type. -/
def handleModalConfirm (now : Nat) (m : Model) (modalType : ModalType)
    (data : ModalData) (inputValue : JStr) : Model :=
  let value := jsTrim inputValue
  if value == [] then m
  else
    match modalType with
    | .board => createBoard now m value
    | .list => createList now m data.boardId value
    | .card => createCard now m data.boardId data.listId value false
    | .editCard => updateCard m data.boardId data.listId data.cardId value

/-- The seed data installed by `loadSampleData` when the collection is empty. -/
def sampleBoards : Model :=
  [⟨js "board-1", js "Project Management",
    [⟨js "list-1", js "To Do",
      [⟨js "card-1", js "Plan project architecture",
        js "Define the overall system design and components", none⟩,
       ⟨js "card-2", js "Set up development environment",
        js "Install necessary tools and configure workspace", none⟩]⟩,
     ⟨js "list-2", js "In Progress",
      [⟨js "card-3", js "Implement user authentication",
        js "Create login/signup functionality", some true⟩]⟩,
     ⟨js "list-3", js "Done",
      [⟨js "card-4", js "Initial project setup",
        js "Created basic folder structure and files", none⟩]⟩]⟩]

example : jsTrim (js "  a ") = js "a" := by decide
example : hasSub (js "create x") (js "create") = true := by decide
example : hasSub (js "abc") (js "d") = false := by decide
example : createBoard 5 [] (js "") ≠ [] := by decide

/-- The task/card suggestion pool of `generateFallbackResponse`. -/
def suggestions : List JStr :=
  [js "I suggest breaking this down into smaller tasks for better tracking.",
   js "Consider adding a deadline to this task to improve productivity.",
   js "This task might benefit from being moved to a different list based on priority.",
   js "I recommend creating subtasks for this complex item."]

/-- The organization-tips pool of `generateFallbackResponse`. -/
def organizationTips : List JStr :=
  [js "Try organizing your boards by project or department for better clarity.",
   js "Consider using color coding or labels to categorize different types of tasks.",
   js "I recommend creating templates for recurring project types.",
   js "Think about implementing a workflow: Backlog → To Do → In Progress → Review → Done"]

/-- The fixed help response of `generateFallbackResponse`. -/
def helpMsg : JStr :=
  js "I can help you organize tasks, suggest improvements, create cards automatically, and provide productivity tips. What specific area would you like assistance with?"

/-- `I've created a new task: "<name>" and added it to your first board. You can find it marked as AI-suggested.` -/
def mkCreateConfirm (taskName : JStr) : JStr :=
  js "I" ++ [apo] ++ js "ve created a new task: " ++ [qd] ++ taskName ++ [qd] ++
  js " and added it to your first board. You can find it marked as AI-suggested."

/-- The response when the create/add branch extracts no task name. -/
def happyMsg : JStr :=
  js "I" ++ [apo] ++ js "d be happy to help create tasks! Please specify what task you" ++
  [apo] ++ js "d like me to add."

/-- The default response pool of `generateFallbackResponse`. -/
def defaultResponses : List JStr :=
  [js "I" ++ [apo] ++ js "m here to help you manage your tasks more effectively. What would you like to accomplish?",
   js "I can assist with organizing your boards, creating tasks, and improving your workflow. What do you need help with?",
   js "Let me know what specific area of task management you" ++ [apo] ++ js "d like to improve, and I" ++ [apo] ++ js "ll provide tailored suggestions.",
   js "I" ++ [apo] ++ js "m ready to help optimize your productivity. What" ++ [apo] ++ js "s your current challenge?"]

/-- Is `c` one of the regex quote class `["']`? -/
def quoteCh (c : Char) : Bool := c == qd || c == apo

/-- After an opening quote, `([^"']+)["']` greedily takes the non-quote run
and requires a closing quote right after; fails on an empty capture or a
missing closing quote. -/
def takeCapture (rest : JStr) : Option JStr :=
  let cap := rest.takeWhile (fun c => !(quoteCh c))
  if cap.isEmpty then none
  else if (rest.drop cap.length).isEmpty then none
  else some cap

/-- The sub-pattern `.*?["']([^"']+)["']`: the lazy `.*?` expands one
character at a time (never across a newline, since `.` excludes it); at each
quote character it attempts the capture and on failure keeps expanding
(a quote is matched by `.` as well). -/
def lazyQuoted : JStr → Option JStr
  | [] => none
  | c :: rest =>
    if quoteCh c then
      match takeCapture rest with
      | some cap => some cap
      | none => lazyQuoted rest
    else if c == '\n' then none
    else lazyQuoted rest

/-- Backtracking loop for `\s+(.+)`: `k + 1` is the number of whitespace
characters currently consumed by the greedy `\s+` (maximal first); `(.+)`
then needs at least one character that is not a newline and greedily takes
the run up to the next newline. -/
def wsTailGo (rest : JStr) : Nat → Option JStr
  | 0 => none
  | k + 1 =>
    match rest.drop (k + 1) with
    | c :: cs =>
      if c == '\n' then wsTailGo rest k
      else some ((c :: cs).takeWhile (fun x => !(x == '\n')))
    | [] => wsTailGo rest k

/-- The sub-pattern `\s+(.+)` applied right after the trigger word. -/
def wsTail (rest : JStr) : Option JStr :=
  wsTailGo rest (rest.takeWhile isWsp).length

/-- Try the four alternatives of
`/create.*?["']([^"']+)["']|add.*?["']([^"']+)["']|create\s+(.+)|add\s+(.+)/i`
at one start position, in source order; the trigger literals are matched
case-insensitively.  Returns the capture of the first alternative that
matches, which is what `taskMatch[1] || taskMatch[2] || taskMatch[3] ||
taskMatch[4]` selects (exactly one group is defined, and never empty). -/
def tryAt (s : JStr) : Option JStr :=
  (if begWith (lowerStr s) (js "create") then lazyQuoted (s.drop 6) else none) <|>
  (if begWith (lowerStr s) (js "add") then lazyQuoted (s.drop 3) else none) <|>
  (if begWith (lowerStr s) (js "create") then wsTail (s.drop 6) else none) <|>
  (if begWith (lowerStr s) (js "add") then wsTail (s.drop 3) else none)

/-- `userMessage.match(regex)` scans start positions left to right and tries
the alternation at each one; the extracted task name of the create/add
branch. -/
def extractTaskName : JStr → Option JStr
  | [] => none
  | c :: t => tryAt (c :: t) <|> extractTaskName t

/-- `createAITask(taskName)`: only when there is a first board with a first
list, create an AI-suggested card there; otherwise do nothing. -/
def createAITask (now : Nat) (m : Model) (taskName : JStr) : Model :=
  match m with
  | [] => m
  | firstBoard :: _ =>
    match firstBoard.lists with
    | [] => m
    | firstList :: _ => createCard now m firstBoard.id firstList.id taskName true

/-- `generateFallbackResponse(userMessage)`: keyword classification in source
order.  Returns the response string and the possibly updated board model
(the create/add branch creates a card as a side effect). -/
def generateFallbackResponse (now : Nat) (m : Model) (userMessage : JStr)
    (rand : Nat) : JStr × Model :=
  let lowerMessage := lowerStr userMessage
  if hasSub lowerMessage (js "task") || hasSub lowerMessage (js "card") then
    (suggestions.getD (rand % suggestions.length) [], m)
  else if hasSub lowerMessage (js "organize") || hasSub lowerMessage (js "structure") then
    (organizationTips.getD (rand % organizationTips.length) [], m)
  else if hasSub lowerMessage (js "help") || hasSub lowerMessage (js "how") then
    (helpMsg, m)
  else if hasSub lowerMessage (js "create") || hasSub lowerMessage (js "add") then
    match extractTaskName userMessage with
    | some taskName => (mkCreateConfirm taskName, createAITask now m taskName)
    | none => (happyMsg, m)
  else
    (defaultResponses.getD (rand % defaultResponses.length) [], m)

/-- The message `create 'Draft report'`. -/
def msgDraft : JStr := js "create " ++ [apo] ++ js "Draft report" ++ [apo]

example : extractTaskName msgDraft = some (js "Draft report") := by decide
example : extractTaskName (js "create   ") = some (js " ") := by decide
example : extractTaskName (js "ADD ") = none := by decide
example : extractTaskName (js "Add  me") = some (js "me") := by decide
example : extractTaskName (js "I added " ++ [apo] ++ js "x" ++ [apo]) = some (js "x") := by decide

theorem getD_mem_of_lt {α : Type} (xs : List α) (i : Nat) (d : α)
    (h : i < xs.length) : xs.getD i d ∈ xs := by
  induction xs generalizing i with
  | nil => simp at h
  | cons x t ih =>
    cases i with
    | zero => simp [List.getD]
    | succ j =>
      simp only [List.getD_cons_succ]
      exact List.mem_cons_of_mem _ (ih j (by simpa using h))

theorem find?_filter_not {α : Type} (p : α → Bool) (l : List α) :
    (l.filter (fun x => !(p x))).find? p = none := by
  induction l with
  | nil => rfl
  | cons x t ih =>
    by_cases hp : p x = true
    · simp [List.filter_cons, hp, ih]
    · have hp' : p x = false := by simpa using hp
      simp [List.filter_cons, hp', List.find?_cons, ih]

theorem updateFirst_of_find?_none {α : Type} (p : α → Bool) (f : α → α)
    (l : List α) (h : l.find? p = none) : updateFirst p f l = l := by
  induction l with
  | nil => rfl
  | cons x t ih =>
    by_cases hp : p x = true
    · simp [List.find?_cons_of_pos, hp] at h
    · have hp' : p x = false := by simpa using hp
      rw [List.find?_cons_of_neg _ hp] at h
      simp [updateFirst, hp', ih h]

theorem updateFirst_of_find?_fix {α : Type} (p : α → Bool) (f : α → α)
    (l : List α) (b : α) (h : l.find? p = some b) (hf : f b = b) :
    updateFirst p f l = l := by
  induction l with
  | nil => simp [List.find?] at h
  | cons x t ih =>
    by_cases hp : p x = true
    · rw [List.find?_cons_of_pos _ hp] at h
      have hb : x = b := by injection h
      subst hb
      simp [updateFirst, hp, hf]
    · have hp' : p x = false := by simpa using hp
      rw [List.find?_cons_of_neg _ hp] at h
      simp [updateFirst, hp', ih h]

theorem find?_updateFirst {α : Type} (p : α → Bool) (f : α → α) (l : List α)
    (hpf : ∀ x, p x = true → p (f x) = true) :
    (updateFirst p f l).find? p = (l.find? p).map f := by
  induction l with
  | nil => rfl
  | cons x t ih =>
    by_cases hp : p x = true
    · simp [updateFirst, hp, List.find?_cons_of_pos, hpf x hp]
    · have hp' : p x = false := by simpa using hp
      simp [updateFirst, hp', List.find?_cons_of_neg, ih]

/-- Claim C1, counterexample: the model-layer `createBoard` performs no title
validation; called directly with the empty title on the empty model it
appends a board, so the model does not stay unchanged. -/
theorem c1_counterexample : createBoard 0 [] (js "") ≠ [] := by decide

/-- Claim C1 (amended): empty-or-whitespace titles are rejected at the modal
confirmation entry point, which trims the input and returns before
dispatching, so no board, list or card is appended there; the model-layer
create functions themselves do not validate titles. -/
theorem c1_empty_title_noop (now : Nat) (m : Model) (t : ModalType)
    (d : ModalData) (input : JStr) (h : jsTrim input = []) :
    handleModalConfirm now m t d input = m := by
  unfold handleModalConfirm
  simp [h]

/-- Claim C1, witness: a whitespace-only modal input leaves the sample model
unchanged. -/
theorem c1_witness :
    handleModalConfirm 7 sampleBoards ModalType.board ⟨[], [], []⟩ (js "   ") =
      sampleBoards :=
  c1_empty_title_noop 7 sampleBoards ModalType.board ⟨[], [], []⟩ (js "   ") (by decide)

/-- Claim C3, counterexample: the task/card branch is tested before the
organize/structure branch, so the message `organize my tasks` (which contains
the word `task`) yields a task-suggestion response, not an organization tip. -/
theorem c3_counterexample :
    (generateFallbackResponse 0 [] (js "organize my tasks") 0).1 ∈ suggestions ∧
    (generateFallbackResponse 0 [] (js "organize my tasks") 0).1 ∉ organizationTips := by
  decide

/-- Claim C3 (amended): for a message containing `organize` whose lowercased
text contains neither `task` nor `card`, the fallback classifier answers from
the organization-tips pool — never from the task-suggestion or default pools
— and leaves the board model unchanged. -/
theorem c3_organize_tips (now : Nat) (m : Model) (msg : JStr) (rand : Nat)
    (horg : hasSub (lowerStr msg) (js "organize") = true)
    (htask : hasSub (lowerStr msg) (js "task") = false)
    (hcard : hasSub (lowerStr msg) (js "card") = false) :
    (generateFallbackResponse now m msg rand).1 ∈ organizationTips ∧
    (generateFallbackResponse now m msg rand).1 ∉ suggestions ∧
    (generateFallbackResponse now m msg rand).1 ∉ defaultResponses ∧
    (generateFallbackResponse now m msg rand).2 = m := by
  have hres : generateFallbackResponse now m msg rand =
      (organizationTips.getD (rand % organizationTips.length) [], m) := by
    unfold generateFallbackResponse
    simp [htask, hcard, horg]
  rw [hres]
  have hlt : rand % organizationTips.length < organizationTips.length :=
    Nat.mod_lt _ (by decide)
  refine ⟨getD_mem_of_lt _ _ _ hlt, ?_, ?_, rfl⟩
  · have hall : ∀ i, i < organizationTips.length →
        organizationTips.getD i [] ∉ suggestions := by decide
    exact hall _ hlt
  · have hall : ∀ i, i < organizationTips.length →
        organizationTips.getD i [] ∉ defaultResponses := by decide
    exact hall _ hlt

/-- Claim C3, witness: the message `please organize this` draws an
organization tip. -/
theorem c3_witness :
    (generateFallbackResponse 0 sampleBoards (js "please organize this") 2).1 ∈
        organizationTips ∧
    (generateFallbackResponse 0 sampleBoards (js "please organize this") 2).1 ∉
        suggestions ∧
    (generateFallbackResponse 0 sampleBoards (js "please organize this") 2).1 ∉
        defaultResponses ∧
    (generateFallbackResponse 0 sampleBoards (js "please organize this") 2).2 =
        sampleBoards :=
  c3_organize_tips 0 sampleBoards (js "please organize this") 2
    (by decide) (by decide) (by decide)

/-- Claim C5: a confirmed board deletion removes the board with everything it
owned and no lookup through the remaining model reaches it; a confirmed list
deletion removes the list with its cards and no lookup reaches them. -/
theorem c5_delete_cascades :
    (∀ (m : Model) (bid : JStr), (findBoard m bid).isSome = true →
      findBoard (deleteBoardConfirm true m bid) bid = none ∧
      ∀ lid cid, findList (deleteBoardConfirm true m bid) bid lid = none ∧
        findCard (deleteBoardConfirm true m bid) bid lid cid = none) ∧
    (∀ (m : Model) (bid lid : JStr), (findList m bid lid).isSome = true →
      findList (deleteListConfirm true m bid lid) bid lid = none ∧
      ∀ cid, findCard (deleteListConfirm true m bid lid) bid lid cid = none) := by
  constructor
  · intro m bid _
    have hb : findBoard (deleteBoardConfirm true m bid) bid = none := by
      have hdel : deleteBoardConfirm true m bid = m.filter (fun x => !(x.id == bid)) := rfl
      rw [hdel]
      exact find?_filter_not _ m
    refine ⟨hb, fun lid cid => ⟨?_, ?_⟩⟩
    · unfold findList
      rw [hb]
      rfl
    · unfold findCard findList
      rw [hb]
      rfl
  · intro m bid lid hsome
    obtain ⟨b, hb⟩ : ∃ b, findBoard m bid = some b := by
      unfold findList at hsome
      cases hfb : findBoard m bid with
      | none => rw [hfb] at hsome; simp at hsome
      | some b => exact ⟨b, rfl⟩
    have hl : findList (deleteListConfirm true m bid lid) bid lid = none := by
      have hfind : findBoard (deleteListConfirm true m bid lid) bid =
          (findBoard m bid).map
            (fun x => { x with lists := x.lists.filter (fun l => !(l.id == lid)) }) := by
        have hdel : deleteListConfirm true m bid lid =
            updateFirst (fun x => x.id == bid)
              (fun x => { x with lists := x.lists.filter (fun l => !(l.id == lid)) }) m := rfl
        rw [hdel]
        exact find?_updateFirst _ _ m (fun x hx => hx)
      unfold findList
      rw [hfind, hb]
      exact find?_filter_not _ b.lists
    refine ⟨hl, fun cid => ?_⟩
    unfold findCard
    rw [hl]
    rfl

/-- Claim C5, witness: deleting the sample board (or its first list) leaves
nothing reachable under those identifiers. -/
theorem c5_witness :
    (findBoard (deleteBoardConfirm true sampleBoards (js "board-1")) (js "board-1") = none ∧
      ∀ lid cid,
        findList (deleteBoardConfirm true sampleBoards (js "board-1")) (js "board-1") lid = none ∧
        findCard (deleteBoardConfirm true sampleBoards (js "board-1")) (js "board-1") lid cid = none) ∧
    (findList (deleteListConfirm true sampleBoards (js "board-1") (js "list-2")) (js "board-1") (js "list-2") = none ∧
      ∀ cid,
        findCard (deleteListConfirm true sampleBoards (js "board-1") (js "list-2")) (js "board-1") (js "list-2") cid = none) :=
  ⟨c5_delete_cascades.1 sampleBoards (js "board-1") (by decide),
   c5_delete_cascades.2 sampleBoards (js "board-1") (js "list-2") (by decide)⟩

/-- Claim C7: when an identifier fails to resolve by exact match (board id
not found; or list id not found inside the resolved board; or card id not
found inside the resolved list), `createList`, `createCard` and `updateCard`
leave the whole model unchanged.  The embedding is by total functions, so no
exception can be raised. -/
theorem c7_unresolved_noop (now : Nat) (m : Model) (bid lid cid tl tc tu : JStr)
    (ai : Bool) :
    (findBoard m bid = none →
      createList now m bid tl = m ∧ createCard now m bid lid tc ai = m ∧
      updateCard m bid lid cid tu = m) ∧
    (findList m bid lid = none →
      createCard now m bid lid tc ai = m ∧ updateCard m bid lid cid tu = m) ∧
    (findCard m bid lid cid = none → updateCard m bid lid cid tu = m) := by
  refine ⟨fun hb => ⟨?_, ?_, ?_⟩, fun hl => ⟨?_, ?_⟩, fun hc => ?_⟩
  · exact updateFirst_of_find?_none _ _ m hb
  · exact updateFirst_of_find?_none _ _ m hb
  · exact updateFirst_of_find?_none _ _ m hb
  · unfold findList at hl
    cases hfb : findBoard m bid with
    | none => exact updateFirst_of_find?_none _ _ m hfb
    | some b =>
      rw [hfb] at hl
      have hl' : b.lists.find? (fun l => l.id == lid) = none := hl
      refine updateFirst_of_find?_fix _ _ m b hfb ?_
      show Board.mk b.id b.title (updateFirst _ _ b.lists) = b
      rw [updateFirst_of_find?_none _ _ b.lists hl']
  · unfold findList at hl
    cases hfb : findBoard m bid with
    | none => exact updateFirst_of_find?_none _ _ m hfb
    | some b =>
      rw [hfb] at hl
      have hl' : b.lists.find? (fun l => l.id == lid) = none := hl
      refine updateFirst_of_find?_fix _ _ m b hfb ?_
      show Board.mk b.id b.title (updateFirst _ _ b.lists) = b
      rw [updateFirst_of_find?_none _ _ b.lists hl']
  · unfold findCard at hc
    cases hfl : findList m bid lid with
    | none =>
      unfold findList at hfl
      cases hfb : findBoard m bid with
      | none => exact updateFirst_of_find?_none _ _ m hfb
      | some b =>
        rw [hfb] at hfl
        have hfl' : b.lists.find? (fun l => l.id == lid) = none := hfl
        refine updateFirst_of_find?_fix _ _ m b hfb ?_
        show Board.mk b.id b.title (updateFirst _ _ b.lists) = b
        rw [updateFirst_of_find?_none _ _ b.lists hfl']
    | some l =>
      rw [hfl] at hc
      have hc' : l.cards.find? (fun c => c.id == cid) = none := hc
      unfold findList at hfl
      cases hfb : findBoard m bid with
      | none => exact updateFirst_of_find?_none _ _ m hfb
      | some b =>
        rw [hfb] at hfl
        have hfl' : b.lists.find? (fun l => l.id == lid) = some l := hfl
        refine updateFirst_of_find?_fix _ _ m b hfb ?_
        show Board.mk b.id b.title (updateFirst _ _ b.lists) = b
        have hfix : TList.mk l.id l.title
            (updateFirst (fun c => c.id == cid)
              (fun c => { c with title := tu }) l.cards) = l := by
          rw [updateFirst_of_find?_none _ _ l.cards hc']
        rw [updateFirst_of_find?_fix _ _ b.lists l hfl' hfix]

/-- Claim C7, witness: unresolvable identifiers on the sample model are
silent no-ops for all three operations. -/
theorem c7_witness :
    createList 9 sampleBoards (js "board-404") (js "T") = sampleBoards ∧
    createCard 9 sampleBoards (js "board-1") (js "list-404") (js "T") false = sampleBoards ∧
    updateCard sampleBoards (js "board-1") (js "list-1") (js "card-404") (js "T") = sampleBoards :=
  ⟨((c7_unresolved_noop 9 sampleBoards (js "board-404") (js "l") (js "c") (js "T") (js "T") (js "T") false).1 (by decide)).1,
   ((c7_unresolved_noop 9 sampleBoards (js "board-1") (js "list-404") (js "c") (js "T") (js "T") (js "T") false).2.1 (by decide)).1,
   (c7_unresolved_noop 9 sampleBoards (js "board-1") (js "list-1") (js "card-404") (js "T") (js "T") (js "T") false).2.2 (by decide)⟩

theorem hasSub_append_of_right (a b pat : JStr) (h : hasSub b pat = true) :
    hasSub (a ++ b) pat = true := by
  induction a with
  | nil => simpa using h
  | cons x t ih =>
    show (begWith ((x :: t) ++ b) pat || hasSub (t ++ b) pat) = true
    rw [ih]
    simp

/-- Claim C4: on the message `create 'Draft report'`, when the first board
has at least one list, the fallback path appends exactly one AI-suggested
card titled `Draft report` to the first board's first list (everything else
unchanged) and returns the confirmation string, which contains
`Draft report`. -/
theorem c4_create_draft_report (now rand : Nat) (b : Board) (bs : List Board)
    (l : TList) (ls : List TList) (hl : b.lists = l :: ls) :
    (generateFallbackResponse now (b :: bs) msgDraft rand).1 =
      mkCreateConfirm (js "Draft report") ∧
    hasSub (generateFallbackResponse now (b :: bs) msgDraft rand).1
      (js "Draft report") = true ∧
    (generateFallbackResponse now (b :: bs) msgDraft rand).2 =
      { b with lists := { l with cards := l.cards ++
          [⟨cardIdOf now, js "Draft report", [], some true⟩] } :: ls } :: bs := by
  have h1 : hasSub (lowerStr msgDraft) (js "task") = false := by decide
  have h2 : hasSub (lowerStr msgDraft) (js "card") = false := by decide
  have h3 : hasSub (lowerStr msgDraft) (js "organize") = false := by decide
  have h4 : hasSub (lowerStr msgDraft) (js "structure") = false := by decide
  have h5 : hasSub (lowerStr msgDraft) (js "help") = false := by decide
  have h6 : hasSub (lowerStr msgDraft) (js "how") = false := by decide
  have h7 : hasSub (lowerStr msgDraft) (js "create") = true := by decide
  have h8 : extractTaskName msgDraft = some (js "Draft report") := by decide
  have hbr : generateFallbackResponse now (b :: bs) msgDraft rand =
      (mkCreateConfirm (js "Draft report"),
       createAITask now (b :: bs) (js "Draft report")) := by
    unfold generateFallbackResponse
    simp [h1, h2, h3, h4, h5, h6, h7, h8]
  have hstep : createAITask now (b :: bs) (js "Draft report") =
      (match b.lists with
        | [] => b :: bs
        | firstList :: _ =>
          createCard now (b :: bs) b.id firstList.id (js "Draft report") true) := rfl
  have hai : createAITask now (b :: bs) (js "Draft report") =
      { b with lists := { l with cards := l.cards ++
          [⟨cardIdOf now, js "Draft report", [], some true⟩] } :: ls } :: bs := by
    rw [hstep, hl]
    show createCard now (b :: bs) b.id l.id (js "Draft report") true = _
    unfold createCard
    show updateFirst _ _ (b :: bs) = _
    rw [updateFirst]
    simp only [beq_self_eq_true, if_pos]
    rw [hl, updateFirst]
    simp only [beq_self_eq_true, if_pos]
  have hdr : hasSub (mkCreateConfirm (js "Draft report")) (js "Draft report") = true := by
    decide
  rw [hbr, hai]
  exact ⟨rfl, hdr, rfl⟩

/-- Claim C4, witness: with the sample model (first board, first list
present), the message creates the card in `list-1` of `board-1`. -/
theorem c4_witness :
    (generateFallbackResponse 12 sampleBoards msgDraft 0).1 =
      mkCreateConfirm (js "Draft report") ∧
    hasSub (generateFallbackResponse 12 sampleBoards msgDraft 0).1
      (js "Draft report") = true ∧
    (generateFallbackResponse 12 sampleBoards msgDraft 0).2 =
      { (sampleBoards.get ⟨0, by decide⟩) with lists :=
        { (sampleBoards.get ⟨0, by decide⟩).lists.get ⟨0, by decide⟩ with cards :=
          ((sampleBoards.get ⟨0, by decide⟩).lists.get ⟨0, by decide⟩).cards ++
            [⟨cardIdOf 12, js "Draft report", [], some true⟩] } ::
          ((sampleBoards.get ⟨0, by decide⟩).lists.drop 1) } ::
        (sampleBoards.drop 1) :=
  c4_create_draft_report 12 0 (sampleBoards.get ⟨0, by decide⟩) (sampleBoards.drop 1)
    ((sampleBoards.get ⟨0, by decide⟩).lists.get ⟨0, by decide⟩)
    ((sampleBoards.get ⟨0, by decide⟩).lists.drop 1) (by decide)

/-- Claim C10: a message that reaches the create/add branch and matches the
extraction pattern, when the board collection is empty or the first board
has no lists, changes nothing in the model — yet the returned response is
still the confirmation string claiming the task was created and added to the
first board. -/
theorem c10_phantom_confirmation (now rand : Nat) (m : Model) (msg name : JStr)
    (htask : hasSub (lowerStr msg) (js "task") = false)
    (hcard : hasSub (lowerStr msg) (js "card") = false)
    (horg : hasSub (lowerStr msg) (js "organize") = false)
    (hstr : hasSub (lowerStr msg) (js "structure") = false)
    (hhelp : hasSub (lowerStr msg) (js "help") = false)
    (hhow : hasSub (lowerStr msg) (js "how") = false)
    (hcr : (hasSub (lowerStr msg) (js "create") || hasSub (lowerStr msg) (js "add")) = true)
    (hname : extractTaskName msg = some name)
    (hempty : m = [] ∨ ∃ b bs, m = b :: bs ∧ b.lists = []) :
    (generateFallbackResponse now m msg rand).2 = m ∧
    (generateFallbackResponse now m msg rand).1 = mkCreateConfirm name ∧
    hasSub (generateFallbackResponse now m msg rand).1
      (js "added it to your first board") = true := by
  have hbr : generateFallbackResponse now m msg rand =
      (mkCreateConfirm name, createAITask now m name) := by
    unfold generateFallbackResponse
    simp [htask, hcard, horg, hstr, hhelp, hhow, hcr, hname]
  have hai : createAITask now m name = m := by
    rcases hempty with h | ⟨b, bs, hm, hb⟩
    · subst h; rfl
    · subst hm
      have hstep : createAITask now (b :: bs) name =
          (match b.lists with
            | [] => b :: bs
            | firstList :: _ =>
              createCard now (b :: bs) b.id firstList.id name true) := rfl
      rw [hstep, hb]
  rw [hbr, hai]
  refine ⟨rfl, rfl, ?_⟩
  exact hasSub_append_of_right _ _ _ (by decide)

/-- Claim C10, witness: on the empty board collection the message
`create 'Draft report'` changes nothing but still returns the confirmation. -/
theorem c10_witness :
    (generateFallbackResponse 0 [] msgDraft 0).2 = [] ∧
    (generateFallbackResponse 0 [] msgDraft 0).1 =
      mkCreateConfirm (js "Draft report") ∧
    hasSub (generateFallbackResponse 0 [] msgDraft 0).1
      (js "added it to your first board") = true :=
  c10_phantom_confirmation 0 0 [] msgDraft (js "Draft report")
    (by decide) (by decide) (by decide) (by decide) (by decide) (by decide)
    (by decide) (by decide) (Or.inl rfl)

/-- A transcript entry of `this.aiMessages` (the fields used by the
escalation and feedback paths). -/
structure AiMessage where
  type : JStr
  content : JStr
  id : JStr
  timestamp : JStr
  isSystemMessage : Bool
deriving DecidableEq, Repr

/-- An escalation record as built by `submitEscalation`. -/
structure Escalation where
  id : JStr
  ticketId : JStr
  issueType : JStr
  description : JStr
  timestamp : JStr
  status : JStr
  priority : JStr
  source : JStr
  conversationHistory : List AiMessage
deriving DecidableEq, Repr

/-- The state touched by `submitEscalation`: the transcript, the in-memory
escalation collection, and the persisted `escalation-data` blob. -/
structure EscState where
  aiMessages : List AiMessage
  escalationData : List Escalation
  escalationStore : List Escalation
deriving DecidableEq, Repr

/-- `s.slice(-n)`: the last `n` elements (the whole list when shorter). -/
def lastSlice (n : Nat) (s : List α) : List α := s.drop (s.length - n)

/-- `` `AI-${Date.now().toString().slice(-6)}` `` -/
def ticketIdOf (now : Nat) : JStr := js "AI-" ++ lastSlice 6 (Nat.repr now).data

/-- `submitEscalation()`: trim the description; when it is empty, alert and
return with nothing changed.  Otherwise append the record to the local
collection, persist the collection, and append the ticket confirmation to the
transcript.  (The best-effort remote POST and the delayed urgent-priority
transcript entry are asynchronous and outside this state function.) -/
def submitEscalation (st : EscState) (issueType rawDesc : JStr) (now : Nat)
    (ts : JStr) : EscState :=
  let description := jsTrim rawDesc
  if description == [] then st
  else
    let e : Escalation :=
      ⟨(Nat.repr now).data, ticketIdOf now, issueType, description, ts,
       js "open", js "normal", js "ai_assistant", lastSlice 5 st.aiMessages⟩
    let esc' := st.escalationData ++ [e]
    { aiMessages := st.aiMessages ++
        [⟨js "ai",
          js "Your issue has been escalated to our support team. Ticket ID: " ++
            e.ticketId ++ js ". You can expect a response within 2 business days.",
          (Nat.repr now).data, ts, true⟩],
      escalationData := esc',
      escalationStore := esc' }

/-- Claim C9: an escalation whose description is empty after trimming is
rejected client-side: the escalation collection, the persisted blob and the
transcript are all left exactly as they were. -/
theorem c9_empty_description_rejected (st : EscState) (issueType rawDesc : JStr)
    (now : Nat) (ts : JStr) (h : jsTrim rawDesc = []) :
    submitEscalation st issueType rawDesc now ts = st := by
  unfold submitEscalation
  simp [h]

/-- Claim C9, witness: a whitespace-only description changes nothing. -/
theorem c9_witness :
    submitEscalation ⟨[], [], []⟩ (js "technical") (js "  ") 5 (js "t") =
      (⟨[], [], []⟩ : EscState) :=
  c9_empty_description_rejected ⟨[], [], []⟩ (js "technical") (js "  ") 5 (js "t")
    (by decide)

/-- JSON values as produced by `JSON.parse` / consumed by `JSON.stringify`.
Numbers keep their source lexeme (this application's data contains no
numbers). -/
inductive Json where
  | null
  | bool (b : Bool)
  | num (lexeme : JStr)
  | str (s : JStr)
  | arr (elems : List Json)
  | obj (fields : List (JStr × Json))
deriving Repr

/-- The JSON image of a card under `JSON.stringify`: the `aiSuggested` key is
present exactly when the object carries the field. -/
def encodeCard (c : Card) : Json :=
  Json.obj ([(js "id", Json.str c.id), (js "title", Json.str c.title),
             (js "description", Json.str c.description)] ++
    (match c.aiSuggested with
     | none => []
     | some b => [(js "aiSuggested", Json.bool b)]))

/-- The JSON image of a list. -/
def encodeTList (l : TList) : Json :=
  Json.obj [(js "id", Json.str l.id), (js "title", Json.str l.title),
            (js "cards", Json.arr (l.cards.map encodeCard))]

/-- The JSON image of a board. -/
def encodeBoard (b : Board) : Json :=
  Json.obj [(js "id", Json.str b.id), (js "title", Json.str b.title),
            (js "lists", Json.arr (b.lists.map encodeTList))]

/-- `JSON.stringify(this.boards)` at the JSON-value level (`JSON.parse` of
the stored text recovers exactly this value: the platform codec is the
identity on JSON-representable data, and every value this model stores is
JSON-representable). -/
def encodeBoards (m : Model) : Json := Json.arr (m.map encodeBoard)

/-- First field with the given key. -/
def jLookup (fields : List (JStr × Json)) (key : JStr) : Option Json :=
  (fields.find? (fun f => f.1 == key)).map (fun f => f.2)

/-- Read a JSON value as a string. -/
def asStr : Json → Option JStr
  | Json.str s => some s
  | _ => none

/-- Element-wise decoding of a JSON array; fails when any element fails
(the shape `xs.map(decode)` with failure propagation). -/
def mapO (f : α → Option β) : List α → Option (List β)
  | [] => some []
  | x :: t =>
    match f x with
    | none => none
    | some y => (mapO f t).map (fun ys => y :: ys)

/-- Reading a reloaded card back through the field accesses the application
performs (`c.id`, `c.title`, `c.description`, `c.aiSuggested`). -/
def decodeCard (j : Json) : Option Card :=
  match j with
  | Json.obj fields =>
    match (jLookup fields (js "id")).bind asStr,
          (jLookup fields (js "title")).bind asStr,
          (jLookup fields (js "description")).bind asStr with
    | some i, some t, some d =>
      (match jLookup fields (js "aiSuggested") with
        | none => some ⟨i, t, d, none⟩
        | some (Json.bool b) => some ⟨i, t, d, some b⟩
        | some _ => none)
    | _, _, _ => none
  | _ => none

/-- Reading a reloaded list back. -/
def decodeTList (j : Json) : Option TList :=
  match j with
  | Json.obj fields =>
    match (jLookup fields (js "id")).bind asStr,
          (jLookup fields (js "title")).bind asStr,
          jLookup fields (js "cards") with
    | some i, some t, some (Json.arr xs) =>
      (mapO decodeCard xs).map (fun cs => ⟨i, t, cs⟩)
    | _, _, _ => none
  | _ => none

/-- Reading a reloaded board back. -/
def decodeBoard (j : Json) : Option Board :=
  match j with
  | Json.obj fields =>
    match (jLookup fields (js "id")).bind asStr,
          (jLookup fields (js "title")).bind asStr,
          jLookup fields (js "lists") with
    | some i, some t, some (Json.arr xs) =>
      (mapO decodeTList xs).map (fun ls => ⟨i, t, ls⟩)
    | _, _, _ => none
  | _ => none

/-- Reading the whole reloaded collection back. -/
def decodeBoards (j : Json) : Option Model :=
  match j with
  | Json.arr xs => mapO decodeBoard xs
  | _ => none

theorem mapO_map_of_inverse (f : α → Option β) (g : β → α)
    (h : ∀ x, f (g x) = some x) (l : List β) : mapO f (l.map g) = some l := by
  induction l with
  | nil => rfl
  | cons x t ih =>
    show mapO f (g x :: t.map g) = some (x :: t)
    unfold mapO
    rw [h x, ih]
    rfl

theorem decodeCard_encodeCard (c : Card) : decodeCard (encodeCard c) = some c := by
  obtain ⟨i, t, d, ai⟩ := c
  cases ai <;> rfl

theorem decodeTList_encodeTList (l : TList) :
    decodeTList (encodeTList l) = some l := by
  obtain ⟨i, t, cs⟩ := l
  show (mapO decodeCard (cs.map encodeCard)).map
      (fun cs2 => (⟨i, t, cs2⟩ : TList)) = some ⟨i, t, cs⟩
  rw [mapO_map_of_inverse decodeCard encodeCard decodeCard_encodeCard]
  rfl

theorem decodeBoard_encodeBoard (b : Board) :
    decodeBoard (encodeBoard b) = some b := by
  obtain ⟨i, t, ls⟩ := b
  show (mapO decodeTList (ls.map encodeTList)).map
      (fun ls2 => (⟨i, t, ls2⟩ : Board)) = some ⟨i, t, ls⟩
  rw [mapO_map_of_inverse decodeTList encodeTList decodeTList_encodeTList]
  rfl

theorem decodeBoards_encodeBoards (bs : List Board) :
    decodeBoards (encodeBoards bs) = some bs := by
  show mapO decodeBoard (bs.map encodeBoard) = some bs
  exact mapO_map_of_inverse decodeBoard encodeBoard decodeBoard_encodeBoard bs

/-- Board collections reachable from the initial state (the seed sample
data) through the public mutating operations. -/
inductive ReachableModel : Model → Prop where
  | init : ReachableModel sampleBoards
  | board (now : Nat) (title : JStr) {m : Model} :
      ReachableModel m → ReachableModel (createBoard now m title)
  | list (now : Nat) (bid title : JStr) {m : Model} :
      ReachableModel m → ReachableModel (createList now m bid title)
  | card (now : Nat) (bid lid title : JStr) (ai : Bool) {m : Model} :
      ReachableModel m → ReachableModel (createCard now m bid lid title ai)
  | update (bid lid cid title : JStr) {m : Model} :
      ReachableModel m → ReachableModel (updateCard m bid lid cid title)
  | delBoard (ok : Bool) (bid : JStr) {m : Model} :
      ReachableModel m → ReachableModel (deleteBoardConfirm ok m bid)
  | delList (ok : Bool) (bid lid : JStr) {m : Model} :
      ReachableModel m → ReachableModel (deleteListConfirm ok m bid lid)

/-- Claim C6: for every model reachable via the public operations,
serializing the collection to the store and reading it back yields a
deep-equal model. -/
theorem c6_persist_roundtrip (m : Model) (_ : ReachableModel m) :
    decodeBoards (encodeBoards m) = some m :=
  decodeBoards_encodeBoards m

/-- Claim C6, witness: the round trip on the seed data. -/
theorem c6_witness : decodeBoards (encodeBoards sampleBoards) = some sampleBoards :=
  c6_persist_roundtrip sampleBoards ReachableModel.init

/-- JSON insignificant whitespace. -/
def skipWs (s : JStr) : JStr :=
  s.dropWhile (fun c => c == ' ' || c == '\t' || c == '\n' || c == '\r')

/-- Value of one hex digit. -/
def hexVal (c : Char) : Option Nat :=
  if '0' ≤ c && c ≤ '9' then some (c.toNat - 48)
  else if 'a' ≤ c && c ≤ 'f' then some (c.toNat - 87)
  else if 'A' ≤ c && c ≤ 'F' then some (c.toNat - 55)
  else none

/-- Parse a JSON string body after the opening quote: returns the decoded
content and the input after the closing quote.  Escapes follow the JSON
grammar; raw control characters are rejected. -/
def parseStrBody : Nat → JStr → Option (JStr × JStr)
  | 0, _ => none
  | _ + 1, [] => none
  | fuel + 1, c :: rest =>
    if c == qd then some ([], rest)
    else if c == '\\' then
      match rest with
      | [] => none
      | e :: rest2 =>
        if e == qd then
          (parseStrBody fuel rest2).map (fun r => (qd :: r.1, r.2))
        else if e == '\\' then
          (parseStrBody fuel rest2).map (fun r => ('\\' :: r.1, r.2))
        else if e == '/' then
          (parseStrBody fuel rest2).map (fun r => ('/' :: r.1, r.2))
        else if e == 'b' then
          (parseStrBody fuel rest2).map (fun r => (Char.ofNat 8 :: r.1, r.2))
        else if e == 'f' then
          (parseStrBody fuel rest2).map (fun r => (Char.ofNat 12 :: r.1, r.2))
        else if e == 'n' then
          (parseStrBody fuel rest2).map (fun r => ('\n' :: r.1, r.2))
        else if e == 'r' then
          (parseStrBody fuel rest2).map (fun r => ('\r' :: r.1, r.2))
        else if e == 't' then
          (parseStrBody fuel rest2).map (fun r => ('\t' :: r.1, r.2))
        else if e == 'u' then
          match rest2 with
          | h1 :: h2 :: h3 :: h4 :: rest3 =>
            match hexVal h1, hexVal h2, hexVal h3, hexVal h4 with
            | some a, some b, some c2, some d =>
              (parseStrBody fuel rest3).map
                (fun r => (Char.ofNat (((a * 16 + b) * 16 + c2) * 16 + d) :: r.1, r.2))
            | _, _, _, _ => none
          | _ => none
        else none
    else if c.toNat < 32 then none
    else (parseStrBody fuel rest).map (fun r => (c :: r.1, r.2))

/-- Is `c` an ASCII digit? -/
def isDig (c : Char) : Bool := '0' ≤ c && c ≤ '9'

/-- Parse a JSON number lexeme `-? int frac? exp?`; returns the lexeme and
the remaining input. -/
def parseNumLex (s : JStr) : Option (JStr × JStr) :=
  let (sign, s1) :=
    match s with
    | c :: t => if c == '-' then ([c], t) else ([], s)
    | [] => ([], s)
  match s1 with
  | [] => none
  | c :: t =>
    if !(isDig c) then none
    else
      let (intPart, s2) :=
        if c == '0' then ([c], t)
        else (s1.takeWhile isDig, s1.dropWhile isDig)
      let (fracPart, s3) :=
        match s2 with
        | p :: u =>
          if p == '.' then
            let ds := u.takeWhile isDig
            if ds.isEmpty then ([' '], u) else (p :: ds, u.dropWhile isDig)
          else ([], s2)
        | [] => ([], s2)
      if fracPart == [' '] then none
      else
        let (expPart, s4) :=
          match s3 with
          | p :: u =>
            if p == 'e' || p == 'E' then
              let (sg, u2) :=
                match u with
                | q :: v => if q == '+' || q == '-' then ([q], v) else ([], u)
                | [] => ([], u)
              let ds := u2.takeWhile isDig
              if ds.isEmpty then ([' '], u) else (p :: (sg ++ ds), u2.dropWhile isDig)
            else ([], s3)
          | [] => ([], s3)
        if expPart == [' '] then none
        else some (sign ++ intPart ++ fracPart ++ expPart, s4)

mutual

/-- Recursive-descent JSON value parser (fuel-indexed; the fuel only bounds
recursion depth and is supplied large enough by `jsonParse`). -/
def parseVal : Nat → JStr → Option (Json × JStr)
  | 0, _ => none
  | fuel + 1, s0 =>
    let s := skipWs s0
    match s with
    | [] => none
    | c :: rest =>
      if c == qd then
        (parseStrBody (rest.length + 1) rest).map (fun r => (Json.str r.1, r.2))
      else if c == Char.ofNat 91 then
        let r := skipWs rest
        match r with
        | d :: r2 =>
          if d == Char.ofNat 93 then some (Json.arr [], r2)
          else (parseElems fuel r).map (fun q => (Json.arr q.1, q.2))
        | [] => none
      else if c == Char.ofNat 123 then
        let r := skipWs rest
        match r with
        | d :: r2 =>
          if d == Char.ofNat 125 then some (Json.obj [], r2)
          else (parseFields fuel r).map (fun q => (Json.obj q.1, q.2))
        | [] => none
      else if begWith s (js "null") then some (Json.null, s.drop 4)
      else if begWith s (js "true") then some (Json.bool true, s.drop 4)
      else if begWith s (js "false") then some (Json.bool false, s.drop 5)
      else (parseNumLex s).map (fun q => (Json.num q.1, q.2))

/-- One-or-more comma-separated array elements up to `]`. -/
def parseElems : Nat → JStr → Option (List Json × JStr)
  | 0, _ => none
  | fuel + 1, s =>
    match parseVal fuel s with
    | none => none
    | some (v, r0) =>
      let r := skipWs r0
      match r with
      | d :: r2 =>
        if d == ',' then (parseElems fuel r2).map (fun q => (v :: q.1, q.2))
        else if d == Char.ofNat 93 then some ([v], r2)
        else none
      | [] => none

/-- One-or-more comma-separated object members up to `}`. -/
def parseFields : Nat → JStr → Option (List (JStr × Json) × JStr)
  | 0, _ => none
  | fuel + 1, s =>
    match skipWs s with
    | c :: r =>
      if c == qd then
        match parseStrBody (r.length + 1) r with
        | none => none
        | some (key, r2) =>
          match skipWs r2 with
          | d :: r3 =>
            if d == ':' then
              match parseVal fuel r3 with
              | none => none
              | some (v, r4) =>
                match skipWs r4 with
                | e :: r5 =>
                  if e == ',' then
                    (parseFields fuel r5).map (fun q => ((key, v) :: q.1, q.2))
                  else if e == Char.ofNat 125 then some ([(key, v)], r5)
                  else none
                | [] => none
            else none
          | [] => none
      else none
    | [] => none

end

/-- `JSON.parse(text)`: parse one value and require only whitespace after
it; `none` models the `SyntaxError` throw. -/
def jsonParse (text : JStr) : Option Json :=
  match parseVal (2 * text.length + 2) text with
  | some (j, r) => if skipWs r == [] then some j else none
  | none => none

/-- The board-collection load of the constructor:
`JSON.parse(localStorage.getItem('trello-boards') || '[]')`.  An absent key
yields `null` and an empty string is falsy, so both fall back to the literal
`'[]'`; a stored value that fails to parse makes `JSON.parse` throw, and
nothing catches the exception. -/
def loadBoardsRaw (stored : Option JStr) : Except Unit Json :=
  let text :=
    match stored with
    | none => js "[]"
    | some v => if v == [] then js "[]" else v
  match jsonParse text with
  | some j => Except.ok j
  | none => Except.error ()

/-- Constructor followed by `init`/`loadSampleData`: when the loaded
collection has length `0`, the seed sample data is installed (and becomes
the live collection); a parse failure propagates as an error. -/
def startupBoards (stored : Option JStr) : Except Unit Json :=
  match loadBoardsRaw stored with
  | Except.error e => Except.error e
  | Except.ok j =>
    match j with
    | Json.arr [] => Except.ok (encodeBoards sampleBoards)
    | _ => Except.ok j

/-- Claim C2, counterexample: a stored blob that fails to parse as JSON does
not fall back to the empty collection — the parse error escapes the startup
path and no seed data is installed. -/
theorem c2_counterexample :
    startupBoards (some (js "not json")) = Except.error () := by rfl

/-- Claim C2 (amended): when the stored board blob is absent (or the empty
string, which is falsy), startup falls back to the empty collection and
installs the seed sample data; but a present blob that fails to parse raises
an error instead of falling back. -/
theorem c2_startup_fallback :
    startupBoards none = Except.ok (encodeBoards sampleBoards) ∧
    (∀ blob : JStr, jsonParse blob = none → blob ≠ [] →
      startupBoards (some blob) = Except.error ()) := by
  constructor
  · rfl
  · intro blob hparse hne
    unfold startupBoards loadBoardsRaw
    have hbeq : (blob == []) = false := by
      cases blob with
      | nil => exact absurd rfl hne
      | cons c t => rfl
    simp only [hbeq]
    rw [if_neg (by simp [hbeq])]
    rw [hparse]

/-- Claim C2, witness: the blob `not json` fails to parse and the startup
error propagates. -/
theorem c2_witness : startupBoards (some (js "corrupt")) = Except.error () :=
  c2_startup_fallback.2 (js "corrupt") (by rfl) (by decide)

/-- Total number of cards in the collection. -/
def totalCards (m : Model) : Nat :=
  (m.map (fun b => (b.lists.map (fun l => l.cards.length)).sum)).sum

/-- Occurrences of a board id in the collection. -/
def occBoard (m : Model) (x : JStr) : Nat :=
  (m.map (fun b => if b.id == x then 1 else 0)).sum

/-- Occurrences of a list id anywhere in the collection. -/
def occList (m : Model) (x : JStr) : Nat :=
  (m.map (fun b => (b.lists.map (fun l => if l.id == x then 1 else 0)).sum)).sum

/-- Occurrences of a card id anywhere in the collection. -/
def occCard (m : Model) (x : JStr) : Nat :=
  (m.map (fun b => (b.lists.map (fun l =>
    (l.cards.map (fun c => if c.id == x then 1 else 0)).sum)).sum)).sum

/-- One create call of the sequences of claim C8, carrying its `Date.now()`
reading. -/
inductive CreateOp where
  | board (now : Nat) (title : JStr)
  | list (now : Nat) (boardId title : JStr)
  | card (now : Nat) (boardId listId title : JStr) (ai : Bool)
deriving Repr

/-- Run one create call. -/
def applyOp (m : Model) : CreateOp → Model
  | .board now t => createBoard now m t
  | .list now bid t => createList now m bid t
  | .card now bid lid t ai => createCard now m bid lid t ai

/-- Run a sequence of create calls. -/
def applyOps (m : Model) : List CreateOp → Model
  | [] => m
  | op :: ops => applyOps (applyOp m op) ops

/-- The title passed to the call. -/
def opTitle : CreateOp → JStr
  | .board _ t => t
  | .list _ _ t => t
  | .card _ _ _ t _ => t

/-- The identifier the call generates from its clock reading. -/
def opGenId : CreateOp → JStr
  | .board now _ => boardIdOf now
  | .list now _ _ => listIdOf now
  | .card now _ _ _ _ => cardIdOf now

/-- Number of successful `createCard` calls in the sequence: a card call
succeeds when its board and list ids resolve in the model at that moment. -/
def cardSuccesses (m : Model) : List CreateOp → Nat
  | [] => 0
  | op :: ops =>
    (match op with
     | CreateOp.card _ bid lid _ _ => if (findList m bid lid).isSome then 1 else 0
     | _ => 0) + cardSuccesses (applyOp m op) ops

/-- Apply `g` to a found element, `0` when absent. -/
def optG {α : Type} (g : α → Nat) : Option α → Nat
  | some x => g x
  | none => 0

theorem sum_map_updateFirst_symm {α : Type} (g : α → Nat) (p : α → Bool)
    (f : α → α) (l : List α) :
    ((updateFirst p f l).map g).sum + optG g (l.find? p) =
    (l.map g).sum + optG (fun x => g (f x)) (l.find? p) := by
  induction l with
  | nil => rfl
  | cons x t ih =>
    by_cases hp : p x = true
    · have hupd : updateFirst p f (x :: t) = f x :: t := by
        simp [updateFirst, hp]
      rw [hupd, List.map_cons, List.sum_cons, List.map_cons, List.sum_cons,
        List.find?_cons_of_pos _ hp]
      simp only [optG]
      omega
    · have hupd : updateFirst p f (x :: t) = x :: updateFirst p f t := by
        simp [updateFirst, hp]
      rw [hupd, List.map_cons, List.sum_cons, List.map_cons, List.sum_cons,
        List.find?_cons_of_neg _ hp]
      omega

theorem sum_map_updateFirst_add {α : Type} (g : α → Nat) (p : α → Bool)
    (f : α → α) (d : Nat) (l : List α)
    (h : ∀ x, p x = true → g (f x) = g x + d) :
    ((updateFirst p f l).map g).sum =
      (l.map g).sum + (if (l.find? p).isSome then d else 0) := by
  induction l with
  | nil => rfl
  | cons x t ih =>
    by_cases hp : p x = true
    · have hupd : updateFirst p f (x :: t) = f x :: t := by
        simp [updateFirst, hp]
      rw [hupd, List.map_cons, List.sum_cons, List.map_cons, List.sum_cons,
        List.find?_cons_of_pos _ hp, h x hp]
      simp only [Option.isSome_some, if_pos]
      omega
    · have hupd : updateFirst p f (x :: t) = x :: updateFirst p f t := by
        simp [updateFirst, hp]
      rw [hupd, List.map_cons, List.sum_cons, List.map_cons, List.sum_cons,
        List.find?_cons_of_neg _ hp, ih]
      omega

theorem countP_le_one_of_nodup (l : List JStr) (h : l.Nodup) (x : JStr) :
    l.countP (fun y => y == x) ≤ 1 := by
  induction l with
  | nil => simp
  | cons a t ih =>
    rw [List.countP_cons]
    by_cases hax : (a == x) = true
    · have hxa : a = x := by simpa using hax
      have hnot : x ∉ t := by
        subst hxa
        exact (List.nodup_cons.mp h).1
      have hz : t.countP (fun y => y == x) = 0 := by
        rw [List.countP_eq_zero]
        intro y hy
        simp only [beq_iff_eq]
        intro he
        subst he
        exact hnot hy
      simp [hz, hax]
    · have ht := ih (List.nodup_cons.mp h).2
      rw [if_neg hax]
      omega

theorem sum_map_updateFirst_eq {α : Type} (g : α → Nat) (p : α → Bool)
    (f : α → α) (l : List α) (h : ∀ x, p x = true → g (f x) = g x) :
    ((updateFirst p f l).map g).sum = (l.map g).sum := by
  have := sum_map_updateFirst_add g p f 0 l (fun x hx => by simp [h x hx])
  simpa using this

theorem updateFirst_nil {α : Type} (p : α → Bool) (f : α → α) :
    updateFirst p f [] = [] := rfl

theorem sum_map_updateFirst_le {α : Type} (g : α → Nat) (p : α → Bool)
    (f : α → α) (d : Nat) (l : List α)
    (h : ∀ x, p x = true → g (f x) ≤ g x + d) :
    ((updateFirst p f l).map g).sum ≤ (l.map g).sum + d := by
  induction l with
  | nil => simp [updateFirst_nil]
  | cons x t ih =>
    by_cases hp : p x = true
    · have hupd : updateFirst p f (x :: t) = f x :: t := by
        simp [updateFirst, hp]
      rw [hupd, List.map_cons, List.sum_cons, List.map_cons, List.sum_cons]
      have := h x hp
      omega
    · have hupd : updateFirst p f (x :: t) = x :: updateFirst p f t := by
        simp [updateFirst, hp]
      rw [hupd, List.map_cons, List.sum_cons, List.map_cons, List.sum_cons]
      omega

theorem totalCards_createBoard (now : Nat) (m : Model) (t : JStr) :
    totalCards (createBoard now m t) = totalCards m := by
  unfold totalCards createBoard
  simp

theorem totalCards_createList (now : Nat) (m : Model) (bid t : JStr) :
    totalCards (createList now m bid t) = totalCards m := by
  unfold totalCards createList
  exact sum_map_updateFirst_eq _ _ _ m (fun b _ => by simp)

theorem totalCards_createCard (now : Nat) (m : Model) (bid lid t : JStr) (ai : Bool) :
    totalCards (createCard now m bid lid t ai) =
      totalCards m + (if (findList m bid lid).isSome then 1 else 0) := by
  unfold totalCards createCard findList findBoard
  induction m with
  | nil => rfl
  | cons b bs ih =>
    by_cases hb : (b.id == bid) = true
    · have hin := sum_map_updateFirst_add (fun l => l.cards.length)
        (fun l => l.id == lid)
        (fun l => { l with cards := l.cards ++ [⟨cardIdOf now, t, [], some ai⟩] })
        1 b.lists (fun l _ => by simp)
      have hf : List.find? (fun y => y.id == bid) (b :: bs) = some b :=
        List.find?_cons_of_pos _ hb
      simp only [updateFirst, hb, if_true, List.map_cons, List.sum_cons, hf,
        Option.some_bind]
      omega
    · have hf : List.find? (fun y => y.id == bid) (b :: bs) =
          List.find? (fun y => y.id == bid) bs :=
        List.find?_cons_of_neg _ hb
      simp only [updateFirst, hb, Bool.false_eq_true, if_false, List.map_cons,
        List.sum_cons, hf]
      omega

theorem occBoard_createBoard (now : Nat) (m : Model) (t : JStr) (x : JStr) :
    occBoard (createBoard now m t) x =
      occBoard m x + (if boardIdOf now == x then 1 else 0) := by
  unfold occBoard createBoard
  simp

theorem occBoard_createList (now : Nat) (m : Model) (bid t x : JStr) :
    occBoard (createList now m bid t) x = occBoard m x := by
  unfold occBoard createList
  exact sum_map_updateFirst_eq _ _ _ m (fun b _ => by simp)

theorem occBoard_createCard (now : Nat) (m : Model) (bid lid t x : JStr) (ai : Bool) :
    occBoard (createCard now m bid lid t ai) x = occBoard m x := by
  unfold occBoard createCard
  exact sum_map_updateFirst_eq _ _ _ m (fun b _ => by simp)

theorem occList_createBoard (now : Nat) (m : Model) (t x : JStr) :
    occList (createBoard now m t) x = occList m x := by
  unfold occList createBoard
  simp

theorem occList_createList_le (now : Nat) (m : Model) (bid t x : JStr) :
    occList (createList now m bid t) x ≤
      occList m x + (if listIdOf now == x then 1 else 0) := by
  unfold occList createList
  exact sum_map_updateFirst_le _ _ _ _ m (fun b _ => by simp)

theorem occList_createCard (now : Nat) (m : Model) (bid lid t x : JStr) (ai : Bool) :
    occList (createCard now m bid lid t ai) x = occList m x := by
  unfold occList createCard
  refine sum_map_updateFirst_eq _ _ _ m (fun b _ => ?_)
  show ((updateFirst (fun l => l.id == lid)
    (fun l => { l with cards := l.cards ++ [⟨cardIdOf now, t, [], some ai⟩] })
    b.lists).map (fun l => if l.id == x then 1 else 0)).sum = _
  exact sum_map_updateFirst_eq _ _ _ b.lists (fun l _ => by simp)

theorem occCard_createBoard (now : Nat) (m : Model) (t x : JStr) :
    occCard (createBoard now m t) x = occCard m x := by
  unfold occCard createBoard
  simp

theorem occCard_createList (now : Nat) (m : Model) (bid t x : JStr) :
    occCard (createList now m bid t) x = occCard m x := by
  unfold occCard createList
  refine sum_map_updateFirst_eq _ _ _ m (fun b _ => ?_)
  simp

theorem occCard_createCard_le (now : Nat) (m : Model) (bid lid t x : JStr) (ai : Bool) :
    occCard (createCard now m bid lid t ai) x ≤
      occCard m x + (if cardIdOf now == x then 1 else 0) := by
  unfold occCard createCard
  refine sum_map_updateFirst_le _ _ _ _ m (fun b _ => ?_)
  show ((updateFirst (fun l => l.id == lid)
    (fun l => { l with cards := l.cards ++ [⟨cardIdOf now, t, [], some ai⟩] })
    b.lists).map (fun l => (l.cards.map (fun c => if c.id == x then 1 else 0)).sum)).sum ≤ _
  exact sum_map_updateFirst_le _ _ _ _ b.lists (fun l _ => by simp)

/-- How many card calls in the sequence generate exactly the id `x`. -/
def cardIdCount (ops : List CreateOp) (x : JStr) : Nat :=
  ops.countP (fun op => match op with
    | CreateOp.card now _ _ _ _ => cardIdOf now == x
    | _ => false)

/-- How many list calls in the sequence generate exactly the id `x`. -/
def listIdCount (ops : List CreateOp) (x : JStr) : Nat :=
  ops.countP (fun op => match op with
    | CreateOp.list now _ _ => listIdOf now == x
    | _ => false)

/-- How many board calls in the sequence generate exactly the id `x`. -/
def boardIdCount (ops : List CreateOp) (x : JStr) : Nat :=
  ops.countP (fun op => match op with
    | CreateOp.board now _ => boardIdOf now == x
    | _ => false)

theorem totalCards_applyOps (ops : List CreateOp) :
    ∀ m : Model, totalCards (applyOps m ops) = totalCards m + cardSuccesses m ops := by
  induction ops with
  | nil => intro m; simp [applyOps, cardSuccesses]
  | cons op rest ih =>
    intro m
    show totalCards (applyOps (applyOp m op) rest) = _
    rw [ih (applyOp m op)]
    cases op with
    | board now t =>
      have h1 : totalCards (applyOp m (CreateOp.board now t)) = totalCards m :=
        totalCards_createBoard now m t
      have h2 : cardSuccesses m (CreateOp.board now t :: rest) =
          0 + cardSuccesses (applyOp m (CreateOp.board now t)) rest := rfl
      omega
    | list now bid t =>
      have h1 : totalCards (applyOp m (CreateOp.list now bid t)) = totalCards m :=
        totalCards_createList now m bid t
      have h2 : cardSuccesses m (CreateOp.list now bid t :: rest) =
          0 + cardSuccesses (applyOp m (CreateOp.list now bid t)) rest := rfl
      omega
    | card now bid lid t ai =>
      have h1 : totalCards (applyOp m (CreateOp.card now bid lid t ai)) =
          totalCards m + (if (findList m bid lid).isSome then 1 else 0) :=
        totalCards_createCard now m bid lid t ai
      have h2 : cardSuccesses m (CreateOp.card now bid lid t ai :: rest) =
          (if (findList m bid lid).isSome then 1 else 0) +
            cardSuccesses (applyOp m (CreateOp.card now bid lid t ai)) rest := rfl
      omega

theorem occCard_applyOps_le (ops : List CreateOp) :
    ∀ (m : Model) (x : JStr),
      occCard (applyOps m ops) x ≤ occCard m x + cardIdCount ops x := by
  induction ops with
  | nil => intro m x; simp [applyOps, cardIdCount]
  | cons op rest ih =>
    intro m x
    show occCard (applyOps (applyOp m op) rest) x ≤ _
    have hih := ih (applyOp m op) x
    cases op with
    | board now t =>
      have h1 : occCard (applyOp m (CreateOp.board now t)) x = occCard m x :=
        occCard_createBoard now m t x
      have h2 : cardIdCount (CreateOp.board now t :: rest) x = cardIdCount rest x := by
        simp [cardIdCount, List.countP_cons]
      omega
    | list now bid t =>
      have h1 : occCard (applyOp m (CreateOp.list now bid t)) x = occCard m x :=
        occCard_createList now m bid t x
      have h2 : cardIdCount (CreateOp.list now bid t :: rest) x = cardIdCount rest x := by
        simp [cardIdCount, List.countP_cons]
      omega
    | card now bid lid t ai =>
      have h1 : occCard (applyOp m (CreateOp.card now bid lid t ai)) x ≤
          occCard m x + (if cardIdOf now == x then 1 else 0) :=
        occCard_createCard_le now m bid lid t x ai
      have h2 : cardIdCount (CreateOp.card now bid lid t ai :: rest) x =
          cardIdCount rest x + (if cardIdOf now == x then 1 else 0) := by
        simp [cardIdCount, List.countP_cons]
      omega

theorem occList_applyOps_le (ops : List CreateOp) :
    ∀ (m : Model) (x : JStr),
      occList (applyOps m ops) x ≤ occList m x + listIdCount ops x := by
  induction ops with
  | nil => intro m x; simp [applyOps, listIdCount]
  | cons op rest ih =>
    intro m x
    show occList (applyOps (applyOp m op) rest) x ≤ _
    have hih := ih (applyOp m op) x
    cases op with
    | board now t =>
      have h1 : occList (applyOp m (CreateOp.board now t)) x = occList m x :=
        occList_createBoard now m t x
      have h2 : listIdCount (CreateOp.board now t :: rest) x = listIdCount rest x := by
        simp [listIdCount, List.countP_cons]
      omega
    | list now bid t =>
      have h1 : occList (applyOp m (CreateOp.list now bid t)) x ≤
          occList m x + (if listIdOf now == x then 1 else 0) :=
        occList_createList_le now m bid t x
      have h2 : listIdCount (CreateOp.list now bid t :: rest) x =
          listIdCount rest x + (if listIdOf now == x then 1 else 0) := by
        simp [listIdCount, List.countP_cons]
      omega
    | card now bid lid t ai =>
      have h1 : occList (applyOp m (CreateOp.card now bid lid t ai)) x = occList m x :=
        occList_createCard now m bid lid t x ai
      have h2 : listIdCount (CreateOp.card now bid lid t ai :: rest) x = listIdCount rest x := by
        simp [listIdCount, List.countP_cons]
      omega

theorem occBoard_applyOps_le (ops : List CreateOp) :
    ∀ (m : Model) (x : JStr),
      occBoard (applyOps m ops) x ≤ occBoard m x + boardIdCount ops x := by
  induction ops with
  | nil => intro m x; simp [applyOps, boardIdCount]
  | cons op rest ih =>
    intro m x
    show occBoard (applyOps (applyOp m op) rest) x ≤ _
    have hih := ih (applyOp m op) x
    cases op with
    | board now t =>
      have h1 : occBoard (applyOp m (CreateOp.board now t)) x =
          occBoard m x + (if boardIdOf now == x then 1 else 0) :=
        occBoard_createBoard now m t x
      have h2 : boardIdCount (CreateOp.board now t :: rest) x =
          boardIdCount rest x + (if boardIdOf now == x then 1 else 0) := by
        simp [boardIdCount, List.countP_cons]
      omega
    | list now bid t =>
      have h1 : occBoard (applyOp m (CreateOp.list now bid t)) x = occBoard m x :=
        occBoard_createList now m bid t x
      have h2 : boardIdCount (CreateOp.list now bid t :: rest) x = boardIdCount rest x := by
        simp [boardIdCount, List.countP_cons]
      omega
    | card now bid lid t ai =>
      have h1 : occBoard (applyOp m (CreateOp.card now bid lid t ai)) x = occBoard m x :=
        occBoard_createCard now m bid lid t x ai
      have h2 : boardIdCount (CreateOp.card now bid lid t ai :: rest) x = boardIdCount rest x := by
        simp [boardIdCount, List.countP_cons]
      omega

theorem cardIdCount_le_genCount (ops : List CreateOp) (x : JStr) :
    cardIdCount ops x ≤ (ops.map opGenId).countP (fun y => y == x) := by
  induction ops with
  | nil => simp [cardIdCount]
  | cons op rest ih =>
    cases op with
    | board now t =>
      have hl : cardIdCount (CreateOp.board now t :: rest) x = cardIdCount rest x := by
        simp [cardIdCount, List.countP_cons]
      have hr : ((CreateOp.board now t :: rest).map opGenId).countP (fun y => y == x) =
          (rest.map opGenId).countP (fun y => y == x) +
            (if boardIdOf now == x then 1 else 0) := by
        simp [List.map_cons, List.countP_cons, opGenId]
      rw [hl, hr]
      omega
    | list now bid t =>
      have hl : cardIdCount (CreateOp.list now bid t :: rest) x = cardIdCount rest x := by
        simp [cardIdCount, List.countP_cons]
      have hr : ((CreateOp.list now bid t :: rest).map opGenId).countP (fun y => y == x) =
          (rest.map opGenId).countP (fun y => y == x) +
            (if listIdOf now == x then 1 else 0) := by
        simp [List.map_cons, List.countP_cons, opGenId]
      rw [hl, hr]
      omega
    | card now bid lid t ai =>
      have hl : cardIdCount (CreateOp.card now bid lid t ai :: rest) x =
          cardIdCount rest x + (if cardIdOf now == x then 1 else 0) := by
        simp [cardIdCount, List.countP_cons]
      have hr : ((CreateOp.card now bid lid t ai :: rest).map opGenId).countP (fun y => y == x) =
          (rest.map opGenId).countP (fun y => y == x) +
            (if cardIdOf now == x then 1 else 0) := by
        simp [List.map_cons, List.countP_cons, opGenId]
      rw [hl, hr]
      omega

theorem listIdCount_le_genCount (ops : List CreateOp) (x : JStr) :
    listIdCount ops x ≤ (ops.map opGenId).countP (fun y => y == x) := by
  induction ops with
  | nil => simp [listIdCount]
  | cons op rest ih =>
    cases op with
    | board now t =>
      have hl : listIdCount (CreateOp.board now t :: rest) x = listIdCount rest x := by
        simp [listIdCount, List.countP_cons]
      have hr : ((CreateOp.board now t :: rest).map opGenId).countP (fun y => y == x) =
          (rest.map opGenId).countP (fun y => y == x) +
            (if boardIdOf now == x then 1 else 0) := by
        simp [List.map_cons, List.countP_cons, opGenId]
      rw [hl, hr]
      omega
    | list now bid t =>
      have hl : listIdCount (CreateOp.list now bid t :: rest) x =
          listIdCount rest x + (if listIdOf now == x then 1 else 0) := by
        simp [listIdCount, List.countP_cons]
      have hr : ((CreateOp.list now bid t :: rest).map opGenId).countP (fun y => y == x) =
          (rest.map opGenId).countP (fun y => y == x) +
            (if listIdOf now == x then 1 else 0) := by
        simp [List.map_cons, List.countP_cons, opGenId]
      rw [hl, hr]
      omega
    | card now bid lid t ai =>
      have hl : listIdCount (CreateOp.card now bid lid t ai :: rest) x = listIdCount rest x := by
        simp [listIdCount, List.countP_cons]
      have hr : ((CreateOp.card now bid lid t ai :: rest).map opGenId).countP (fun y => y == x) =
          (rest.map opGenId).countP (fun y => y == x) +
            (if cardIdOf now == x then 1 else 0) := by
        simp [List.map_cons, List.countP_cons, opGenId]
      rw [hl, hr]
      omega

theorem boardIdCount_le_genCount (ops : List CreateOp) (x : JStr) :
    boardIdCount ops x ≤ (ops.map opGenId).countP (fun y => y == x) := by
  induction ops with
  | nil => simp [boardIdCount]
  | cons op rest ih =>
    cases op with
    | board now t =>
      have hl : boardIdCount (CreateOp.board now t :: rest) x =
          boardIdCount rest x + (if boardIdOf now == x then 1 else 0) := by
        simp [boardIdCount, List.countP_cons]
      have hr : ((CreateOp.board now t :: rest).map opGenId).countP (fun y => y == x) =
          (rest.map opGenId).countP (fun y => y == x) +
            (if boardIdOf now == x then 1 else 0) := by
        simp [List.map_cons, List.countP_cons, opGenId]
      rw [hl, hr]
      omega
    | list now bid t =>
      have hl : boardIdCount (CreateOp.list now bid t :: rest) x = boardIdCount rest x := by
        simp [boardIdCount, List.countP_cons]
      have hr : ((CreateOp.list now bid t :: rest).map opGenId).countP (fun y => y == x) =
          (rest.map opGenId).countP (fun y => y == x) +
            (if listIdOf now == x then 1 else 0) := by
        simp [List.map_cons, List.countP_cons, opGenId]
      rw [hl, hr]
      omega
    | card now bid lid t ai =>
      have hl : boardIdCount (CreateOp.card now bid lid t ai :: rest) x = boardIdCount rest x := by
        simp [boardIdCount, List.countP_cons]
      have hr : ((CreateOp.card now bid lid t ai :: rest).map opGenId).countP (fun y => y == x) =
          (rest.map opGenId).countP (fun y => y == x) +
            (if cardIdOf now == x then 1 else 0) := by
        simp [List.map_cons, List.countP_cons, opGenId]
      rw [hl, hr]
      omega

/-- Claim C8: for every sequence of create calls with non-empty titles on the
initially empty model (with distinct generated identifiers, as produced by
distinct clock readings), the total card count equals the number of
successful `createCard` calls, and every present card id occurs in exactly
one place (one list), every present list id in exactly one board, and every
present board id once — no card or list is shared or orphaned. -/
theorem c8_create_sequence_invariants (ops : List CreateOp)
    (_htitles : ∀ op ∈ ops, opTitle op ≠ [])
    (hids : (ops.map opGenId).Nodup) :
    totalCards (applyOps [] ops) = cardSuccesses [] ops ∧
    (∀ x, 1 ≤ occCard (applyOps [] ops) x → occCard (applyOps [] ops) x = 1) ∧
    (∀ x, 1 ≤ occList (applyOps [] ops) x → occList (applyOps [] ops) x = 1) ∧
    (∀ x, 1 ≤ occBoard (applyOps [] ops) x → occBoard (applyOps [] ops) x = 1) := by
  refine ⟨?_, ?_, ?_, ?_⟩
  · have h := totalCards_applyOps ops []
    have h0 : totalCards [] = 0 := rfl
    omega
  · intro x h1
    have h2 := occCard_applyOps_le ops [] x
    have h3 := cardIdCount_le_genCount ops x
    have h4 := countP_le_one_of_nodup (ops.map opGenId) hids x
    have h0 : occCard [] x = 0 := rfl
    omega
  · intro x h1
    have h2 := occList_applyOps_le ops [] x
    have h3 := listIdCount_le_genCount ops x
    have h4 := countP_le_one_of_nodup (ops.map opGenId) hids x
    have h0 : occList [] x = 0 := rfl
    omega
  · intro x h1
    have h2 := occBoard_applyOps_le ops [] x
    have h3 := boardIdCount_le_genCount ops x
    have h4 := countP_le_one_of_nodup (ops.map opGenId) hids x
    have h0 : occBoard [] x = 0 := rfl
    omega

/-- A small demonstration sequence: one board, one list in it, one card. -/
def opsDemo : List CreateOp :=
  [CreateOp.board 1 (js "A"), CreateOp.list 2 (js "board-1") (js "L"),
   CreateOp.card 3 (js "board-1") (js "list-2") (js "C") false]

/-- Claim C8, witness: the demonstration sequence satisfies the invariants. -/
theorem c8_witness :
    totalCards (applyOps [] opsDemo) = cardSuccesses [] opsDemo ∧
    (∀ x, 1 ≤ occCard (applyOps [] opsDemo) x → occCard (applyOps [] opsDemo) x = 1) ∧
    (∀ x, 1 ≤ occList (applyOps [] opsDemo) x → occList (applyOps [] opsDemo) x = 1) ∧
    (∀ x, 1 ≤ occBoard (applyOps [] opsDemo) x → occBoard (applyOps [] opsDemo) x = 1) :=
  c8_create_sequence_invariants opsDemo (by decide) (by decide)
